import Mathlib

/-!
Verification development for the C wrapper around the NIST SP 800-90B entropy
assessment library (`wrapper.cpp` / `wrapper.h`).

The wrapper's own logic (symbol preparation, channel selection, aggregation and
the result/error model) is embedded shallowly below.  Machine floating point
values (`double`) are modelled as exact rationals `ℚ`: all the properties under
study concern control flow, minima and field propagation, never rounding.
Bytes are modelled as natural numbers; the `uint8_t` masking of the source is
performed explicitly with `&&&`.  The statistical estimators themselves live
outside the wrapped sources and are treated as opaque external collaborators
(see `Estimators` below).
-/

namespace NistWrapper

/-- Mirrors `EstimatorResult` of `wrapper.h`: one recorded per-estimator
outcome (name, estimate or `-1` sentinel, pass/fail, validity). -/
structure EstimatorResult where
  name : String
  entropy_estimate : ℚ
  passed : Bool
  is_entropy_valid : Bool
deriving DecidableEq

/-- Ghost instrumentation: one record per actual estimator invocation, with the
channel label passed to the estimator, the value it returned, and the running
minima `H_original` / `H_bitstring` immediately before and after the
invocation.  The underlying state updates are exactly those of the source;
the records only observe them. -/
structure InvocationRec where
  est : String
  channel : String
  value : ℚ
  Ho_before : ℚ
  Ho_after : ℚ
  Hb_before : ℚ
  Hb_after : ℚ
deriving DecidableEq

/-- Mirrors `EntropyResult` of `wrapper.h`, plus the ghost invocation trace.
`estimator_count` of the C struct is `estimators.length` here. -/
structure EntropyResult where
  min_entropy : ℚ
  h_original : ℚ
  h_bitstring : ℚ
  h_assessed : ℚ
  data_word_size : ℕ
  error_code : ℤ
  error_message : String
  estimators : List EstimatorResult
  trace : List InvocationRec
deriving DecidableEq

/-- `create_result` of wrapper.cpp (the successful-allocation branch): all
numeric fields zeroed, empty error message, no estimator entries. -/
def create_result : EntropyResult :=
  { min_entropy := 0, h_original := 0, h_bitstring := 0, h_assessed := 0,
    data_word_size := 0, error_code := 0, error_message := "",
    estimators := [], trace := [] }

/-- `add_estimator` of wrapper.cpp: appends an estimator record (capped at
`MAX_ESTIMATORS = 16`); `is_entropy_valid` is `entropy >= 0.0`. -/
def add_estimator (r : EntropyResult) (name : String) (entropy : ℚ) (passed : Bool) :
    EntropyResult :=
  if 16 ≤ r.estimators.length then r
  else { r with estimators := r.estimators ++
    [{ name := name, entropy_estimate := entropy, passed := passed,
       is_entropy_valid := decide (0 ≤ entropy) }] }

/-- `add_test_result` of wrapper.cpp: pass/fail only, entropy fixed at `-1.0`,
validity `false`. -/
def add_test_result (r : EntropyResult) (name : String) (passed : Bool) :
    EntropyResult :=
  if 16 ≤ r.estimators.length then r
  else { r with estimators := r.estimators ++
    [{ name := name, entropy_estimate := -1, passed := passed,
       is_entropy_valid := false }] }

/-- `set_error` of wrapper.cpp. -/
def set_error (r : EntropyResult) (code : ℤ) (message : String) : EntropyResult :=
  { r with error_code := code, error_message := message }

/-- Mirrors the NIST `data_t` structure as filled in by `prepare_data`. -/
structure DataT where
  word_size : ℕ
  len : ℕ
  symbols : List ℕ
  rawsymbols : List ℕ
  bsymbols : List ℕ
  alph_size : ℕ
  maxsymbol : ℕ
  blen : ℕ
deriving DecidableEq

/-- The word-size auto-detection loop of `prepare_data` (wrapper.cpp:126-131):
`for (int i = 8; i > 0 && (datamask & curbit) == 0; i--) begin
   curbit >>= 1; detected_size = i - 1; end`.
Arguments are the loop counter `i`, `curbit`, and `detected_size` (an `int`
in the source, hence `ℤ` here). -/
def detect_loop (datamask : ℕ) : ℕ → ℕ → ℤ → ℤ
  | 0, _, ds => ds
  | i + 1, curbit, ds =>
    if datamask &&& curbit = 0 then detect_loop datamask i (curbit >>> 1) (i : ℤ)
    else ds

/-- Word-size auto-detection of `prepare_data` (wrapper.cpp:120-133), run when
the requested `bits_per_symbol` is `0`: `curbit` starts at `0x80`,
`detected_size` at `8`, and the result is
`(detected_size == -1) ? 1 : detected_size + 1`. -/
def detect_word_size (datamask : ℕ) : ℕ :=
  let ds := detect_loop datamask 8 128 8
  if ds = -1 then 1 else (ds + 1).toNat

/-- MSB-first `word_size`-bit expansion of one raw masked value
(wrapper.cpp:178-184): bit `j` is `(raw >> (word_size - 1 - j)) & 0x1`. -/
def bitExpand (word_size : ℕ) (raw : ℕ) : List ℕ :=
  (List.range word_size).map (fun j => (raw >>> (word_size - 1 - j)) &&& 1)

/-- The occurring masked values in increasing order: the source marks each
occurring value in `symbol_map_down_table` (wrapper.cpp:146-154) and then walks
indices `0 .. max_symbols-1` upward (wrapper.cpp:157-161). -/
def occList (symbols0 : List ℕ) (max_symbols : ℕ) : List ℕ :=
  (List.range max_symbols).filter (fun v => symbols0.contains v)

/-- The dense compaction mapping built in `symbol_map_down_table`
(wrapper.cpp:157-161): the `k`-th occurring value (in increasing order) is
mapped to `k`. -/
def symbolMapDown (symbols0 : List ℕ) (max_symbols : ℕ) (v : ℕ) : ℕ :=
  (occList symbols0 max_symbols).indexOf v

/-- `prepare_data` of wrapper.cpp (allocation failures are not modelled; the
two `malloc` checks are assumed to succeed).  Faithful points: the bitstring
is built from the *raw masked* values before compaction; for `word_size == 1`
the C code aliases `bsymbols = symbols`, so after the map-down rewrite the
bitstring is the *compacted* symbol sequence — the model reproduces this by
letting `bsymbols` be the final `symbols` in that case. -/
def prepare_data (data : List ℕ) (bits_per_symbol : ℕ) : DataT :=
  let len := data.length
  let word_size :=
    if bits_per_symbol = 0 then
      detect_word_size (data.foldl (fun a b => a ||| b) 0)
    else bits_per_symbol
  let max_symbols := 2 ^ word_size
  let mask := max_symbols - 1
  let symbols0 := data.map (fun b => b &&& mask)
  let maxsymbol := symbols0.foldl (fun m s => if m < s then s else m) 0
  let alph_size := (occList symbols0 max_symbols).length
  let blen := len * word_size
  let symbols :=
    if alph_size < maxsymbol + 1 then symbols0.map (symbolMapDown symbols0 max_symbols)
    else symbols0
  let bsymbols :=
    if word_size = 1 then symbols
    else (symbols0.map (bitExpand word_size)).flatten
  { word_size := word_size, len := len, symbols := symbols, rawsymbols := data,
    bsymbols := bsymbols, alph_size := alph_size, maxsymbol := maxsymbol,
    blen := blen }

/-- Modelled from the spec: the spec's stated auto-detection rule — "compute
the bitwise OR of all bytes; let `word_size` = (index of highest set bit) + 1,
with the convention that an all-zero sample yields `word_size = 1`".  Used
only to exhibit the divergence of the source's `detect_word_size` from the
specified value. -/
def spec_auto_word_size (data : List ℕ) : ℕ :=
  let m := data.foldl (fun a b => a ||| b) 0
  if m = 0 then 1
  else (List.range 8).foldl (fun acc i => if m >>> i &&& 1 = 1 then i + 1 else acc) 1

/-- Modelled from the spec: the `EstimatorPort` contract.  The statistical
estimator bodies (`most_common`, `collision_test`, …) live in the NIST C++
library outside the wrapped sources; per the spec each "accepts a symbol
sequence, its length, the alphabet size in use, and a channel label" and
"returns either a non-negative entropy estimate …, a sentinel negative value
meaning not applicable …, or — for confirmatory tests only — a boolean
pass/fail"; any unexpected internal failure surfaces as an exception, modelled
by the `Except` error component.  The wrapper is verified for every estimator
behaviour allowed by this contract. -/
structure Estimators where
  most_common : List ℕ → ℕ → String → Except String ℚ
  collision_test : List ℕ → String → Except String ℚ
  markov_test : List ℕ → String → Except String ℚ
  compression_test : List ℕ → String → Except String ℚ
  SAalgs : List ℕ → ℕ → String → Except String (ℚ × ℚ)
  multi_mcw_test : List ℕ → ℕ → String → Except String ℚ
  lag_test : List ℕ → ℕ → String → Except String ℚ
  multi_mmc_test : List ℕ → ℕ → String → Except String ℚ
  LZ78Y_test : List ℕ → ℕ → String → Except String ℚ
  chi_square_tests : List ℕ → ℕ → Except String Bool
  len_LRS_test : List ℕ → ℕ → String → Except String Bool
  permutation_tests : DataT → Except String Bool

/-- Sequencing of a fallible step (the monadic bind of `Except`, written as an
explicit match so proofs can take it apart). -/
def eseq {α β : Type} (x : Except String α) (f : α → Except String β) :
    Except String β :=
  match x with
  | .error e => .error e
  | .ok a => f a

/-- Running state of the Non-IID pipeline: the minima `H_original` and
`H_bitstring` and the result being filled in. -/
structure NIState where
  Ho : ℚ
  Hb : ℚ
  res : EntropyResult
deriving DecidableEq

/-- Appends one ghost invocation record and moves the minima to their new
values. -/
def record (st : NIState) (n ch : String) (v Ho' Hb' : ℚ) : NIState :=
  { Ho := Ho', Hb := Hb',
    res := { st.res with trace := st.res.trace ++
      [{ est := n, channel := ch, value := v, Ho_before := st.Ho, Ho_after := Ho',
         Hb_before := st.Hb, Hb_after := Hb' }] } }

/-- One estimator invocation outcome folded into the state, following the two
source patterns: when `guarded` (the `if (ret_min_entropy >= 0)` sections,
wrapper.cpp:376-390 and 424-494) a negative return leaves the minima and the
section-local entropy variable `e0` unchanged; otherwise
(`most_common` / `collision_test` / `markov_test`, wrapper.cpp:334-372) the
returned value is folded into the channel minimum unconditionally. -/
def apply_call (n ch : String) (guarded : Bool) (v : ℚ) (st : NIState) (e0 : ℚ) :
    NIState × ℚ :=
  if guarded && decide (v < 0) then (record st n ch v st.Ho st.Hb, e0)
  else if ch = "Bitstring" then (record st n ch v st.Ho (min v st.Hb), v)
  else (record st n ch v (min v st.Ho) st.Hb, v)

/-- An estimator call: runs the external estimator and folds its value in. -/
def ni_call (n ch : String) (guarded : Bool) (c : Except String ℚ) (st : NIState)
    (e0 : ℚ) : Except String (NIState × ℚ) :=
  match c with
  | .error e => .error e
  | .ok v => .ok (apply_call n ch guarded v st e0)

/-- One Non-IID estimator section (wrapper.cpp sections 6.3.1-6.3.4 and
6.3.7-6.3.10): a bitstring-channel run under guard `bsg`, a literal-channel
run under guard `lg`, then `add_estimator` with the section-local entropy
value; `passed` is `entropy >= 0` for the guarded sections and `true` for the
unguarded ones, exactly as in the source. -/
def ni_section (n : String) (guarded bsg : Bool) (cb : Except String ℚ)
    (lg : Bool) (cl : Except String ℚ) (st : NIState) : Except String NIState :=
  eseq (if bsg then ni_call n "Bitstring" guarded cb st (-1) else .ok (st, (-1 : ℚ)))
    fun p1 =>
  eseq (if lg then ni_call n "Literal" guarded cl p1.1 p1.2 else .ok p1) fun p2 =>
  .ok { p2.1 with res := (add_estimator p2.1.res n p2.2
          (if guarded then decide (0 ≤ p2.2) else true)) }

/-- Sections 6.3.5/6.3.6 (wrapper.cpp:392-422): one `SAalgs` call per channel
returns the t-tuple and LRS estimates together; each of the two values is
folded in under its own `>= 0.0` guard, t-tuple first, then both are recorded
with `add_estimator`. -/
def sec_saalgs (bsg : Bool) (cb : Except String (ℚ × ℚ)) (lg : Bool)
    (cl : Except String (ℚ × ℚ)) (st : NIState) : Except String NIState :=
  eseq (if bsg then
          cb.map (fun bv =>
            let q1 := apply_call "t-Tuple Test" "Bitstring" true bv.1 st (-1)
            let q2 := apply_call "LRS Test" "Bitstring" true bv.2 q1.1 (-1)
            (q2.1, q1.2, q2.2))
        else .ok (st, (-1 : ℚ), (-1 : ℚ))) fun r1 =>
  eseq (if lg then
          cl.map (fun lv =>
            let q1 := apply_call "t-Tuple Test" "Literal" true lv.1 r1.1 r1.2.1
            let q2 := apply_call "LRS Test" "Literal" true lv.2 q1.1 r1.2.2
            (q2.1, q1.2, q2.2))
        else .ok r1) fun r2 =>
  .ok { r2.1 with res :=
    (add_estimator
      (add_estimator r2.1.res "t-Tuple Test" r2.2.1 (decide (0 ≤ r2.2.1)))
      "LRS Test" r2.2.2 (decide (0 ≤ r2.2.2))) }

/-- The body of `calculate_non_iid_entropy` (wrapper.cpp:299-512): validation,
data preparation, degenerate-alphabet check, the ten estimator sections in
canonical order, and the SP 800-90B 3.1.3 combination.  `is_binary` is the
`initial_entropy` mode flag.  The `verbose` pass-through knob is dropped
(unused by the wrapper's logic). -/
def non_iid_body (E : Estimators) (data : List ℕ) (bits_per_symbol : ℤ)
    (is_binary : Bool) : Except String EntropyResult :=
  if data.length = 0 then
    .ok (set_error create_result (-1) "Invalid input: data is NULL or empty")
  else if bits_per_symbol < 0 ∨ 8 < bits_per_symbol then
    .ok (set_error create_result (-1) "Invalid bits_per_symbol: must be 0-8")
  else
    let dp := prepare_data data bits_per_symbol.toNat
    if dp.alph_size ≤ 1 then
      .ok (set_error create_result (-1)
        "Symbol alphabet consists of 1 symbol. No entropy awarded.")
    else
      let ini := is_binary
      let bsg := decide (2 < dp.alph_size) || !ini
      let lit2 := ini && decide (dp.alph_size = 2)
      let st0 : NIState := ⟨(dp.word_size : ℚ), 1, create_result⟩
      eseq (ni_section "Most Common Value" false bsg
              (E.most_common dp.bsymbols 2 "Bitstring") ini
              (E.most_common dp.symbols dp.alph_size "Literal") st0) fun st1 =>
      eseq (ni_section "Collision Test" false bsg
              (E.collision_test dp.bsymbols "Bitstring") lit2
              (E.collision_test dp.symbols "Literal") st1) fun st2 =>
      eseq (ni_section "Markov Test" false bsg
              (E.markov_test dp.bsymbols "Bitstring") lit2
              (E.markov_test dp.symbols "Literal") st2) fun st3 =>
      eseq (ni_section "Compression Test" true bsg
              (E.compression_test dp.bsymbols "Bitstring") lit2
              (E.compression_test dp.symbols "Literal") st3) fun st4 =>
      eseq (sec_saalgs bsg (E.SAalgs dp.bsymbols 2 "Bitstring") ini
              (E.SAalgs dp.symbols dp.alph_size "Literal") st4) fun st5 =>
      eseq (ni_section "Multi Most Common in Window Test" true bsg
              (E.multi_mcw_test dp.bsymbols 2 "Bitstring") ini
              (E.multi_mcw_test dp.symbols dp.alph_size "Literal") st5) fun st6 =>
      eseq (ni_section "Lag Prediction Test" true bsg
              (E.lag_test dp.bsymbols 2 "Bitstring") ini
              (E.lag_test dp.symbols dp.alph_size "Literal") st6) fun st7 =>
      eseq (ni_section "Multi Markov Model with Counting Test" true bsg
              (E.multi_mmc_test dp.bsymbols 2 "Bitstring") ini
              (E.multi_mmc_test dp.symbols dp.alph_size "Literal") st7) fun st8 =>
      eseq (ni_section "LZ78Y Test" true bsg
              (E.LZ78Y_test dp.bsymbols 2 "Bitstring") ini
              (E.LZ78Y_test dp.symbols dp.alph_size "Literal") st8) fun st9 =>
      let h1 : ℚ := (dp.word_size : ℚ)
      let h2 := if bsg then min h1 (st9.Hb * (dp.word_size : ℚ)) else h1
      let h3 := if ini then min h2 st9.Ho else h2
      .ok { st9.res with
        h_original := st9.Ho, h_bitstring := st9.Hb,
        h_assessed := h3, min_entropy := h3,
        data_word_size := dp.word_size, error_code := 0 }

/-- `calculate_non_iid_entropy` after a successful result allocation: the
try/catch of the source maps an exception to `set_error(result, -2, ...)`
(wrapper.cpp:516-520).  (On the catch path the C result also retains the
estimator entries recorded before the exception; the model drops them — no
numeric field is affected, as none is written before the success epilogue.) -/
def calculate_non_iid_entropy_core (E : Estimators) (data : List ℕ)
    (bits_per_symbol : ℤ) (is_binary : Bool) : EntropyResult :=
  match non_iid_body E data bits_per_symbol is_binary with
  | .ok r => r
  | .error e => set_error create_result (-2) e

/-- `calculate_non_iid_entropy` (wrapper.cpp:287-297): the allocation outcome
of `create_result` is an environment input, modelled by `alloc_ok`; on
allocation failure the function returns NULL (`none`). -/
def calculate_non_iid_entropy (alloc_ok : Bool) (E : Estimators) (data : List ℕ)
    (bits_per_symbol : ℤ) (is_binary : Bool) : Option EntropyResult :=
  if alloc_ok then some (calculate_non_iid_entropy_core E data bits_per_symbol is_binary)
  else none

/-- The body of `calculate_iid_entropy` (wrapper.cpp:209-275): validation,
preparation, degenerate check, most-common-value on the literal channel
(assigned to `H_original` directly), conditionally on the bitstring channel
(`H_bitstring` stays at its 1.0 seed otherwise), the three confirmatory
tests, and the combination.  `calc_stats` and `permutation_tests` are a
single external call here (both live outside the wrapped sources). -/
def iid_body (E : Estimators) (data : List ℕ) (bits_per_symbol : ℤ) :
    Except String EntropyResult :=
  if data.length = 0 then
    .ok (set_error create_result (-1) "Invalid input: data is NULL or empty")
  else if bits_per_symbol < 0 ∨ 8 < bits_per_symbol then
    .ok (set_error create_result (-1) "Invalid bits_per_symbol: must be 0-8")
  else
    let dp := prepare_data data bits_per_symbol.toNat
    if dp.alph_size ≤ 1 then
      .ok (set_error create_result (-1)
        "Symbol alphabet consists of 1 symbol. No entropy awarded.")
    else
      eseq (E.most_common dp.symbols dp.alph_size "Literal") fun H_original =>
      let r1 := add_estimator create_result "Most Common Value" H_original true
      eseq (if 2 < dp.alph_size then E.most_common dp.bsymbols 2 "Bitstring"
            else .ok 1) fun H_bitstring =>
      eseq (E.chi_square_tests dp.symbols dp.alph_size) fun chi =>
      let r2 := add_test_result r1 "Chi-Square Tests" chi
      eseq (E.len_LRS_test dp.symbols dp.alph_size "Literal") fun lrs =>
      let r3 := add_test_result r2 "Length of Longest Repeated Substring Test" lrs
      eseq (E.permutation_tests dp) fun perm =>
      let r4 := add_test_result r3 "Permutation Tests" perm
      let h1 : ℚ := (dp.word_size : ℚ)
      let h2 := if 2 < dp.alph_size then min h1 (H_bitstring * (dp.word_size : ℚ))
                else h1
      let h3 := min h2 H_original
      .ok { r4 with
        h_original := H_original, h_bitstring := H_bitstring,
        h_assessed := h3, min_entropy := h3,
        data_word_size := dp.word_size, error_code := 0 }

/-- `calculate_iid_entropy` after a successful result allocation; the unused
`is_binary` parameter is kept for interface fidelity. -/
def calculate_iid_entropy_core (E : Estimators) (data : List ℕ)
    (bits_per_symbol : ℤ) (is_binary : Bool) : EntropyResult :=
  match iid_body E data bits_per_symbol with
  | .ok r => r
  | .error e => set_error create_result (-2) e

/-- `calculate_iid_entropy` (wrapper.cpp:197-207) with the allocation outcome
of `create_result` as an environment input. -/
def calculate_iid_entropy (alloc_ok : Bool) (E : Estimators) (data : List ℕ)
    (bits_per_symbol : ℤ) (is_binary : Bool) : Option EntropyResult :=
  if alloc_ok then some (calculate_iid_entropy_core E data bits_per_symbol is_binary)
  else none

/-- A concrete estimator assignment where every estimator succeeds with the
estimate 1 (and every confirmatory test passes); used for witnesses. -/
def Eok : Estimators :=
  { most_common := fun _ _ _ => .ok 1,
    collision_test := fun _ _ => .ok 1,
    markov_test := fun _ _ => .ok 1,
    compression_test := fun _ _ => .ok 1,
    SAalgs := fun _ _ _ => .ok (1, 1),
    multi_mcw_test := fun _ _ _ => .ok 1,
    lag_test := fun _ _ _ => .ok 1,
    multi_mmc_test := fun _ _ _ => .ok 1,
    LZ78Y_test := fun _ _ _ => .ok 1,
    chi_square_tests := fun _ _ => .ok true,
    len_LRS_test := fun _ _ _ => .ok true,
    permutation_tests := fun _ => .ok true }

/-- Like `Eok` but the collision estimator reports the not-applicable sentinel
`-1`. -/
def Eneg : Estimators :=
  { Eok with collision_test := fun _ _ => .ok (-1) }

/-- Like `Eok` but the multi-MCW estimator returns 0 on the literal channel,
making its literal-channel effect on `H_original` observable. -/
def Emcw : Estimators :=
  { Eok with multi_mcw_test := fun _ _ ch =>
      if ch = "Literal" then .ok 0 else .ok 1 }

/-- Like `Eok` but the compression estimator reports the not-applicable
sentinel `-1`. -/
def Ecomp : Estimators :=
  { Eok with compression_test := fun _ _ => .ok (-1) }

/-- How one invocation moved the minima: a guarded invocation leaves both
minima (and hence the record) unchanged on a sentinel value, and otherwise the
value is min-folded into the channel’s minimum, the other minimum unchanged. -/
def recHalf (g : Bool) (rec : InvocationRec) : Prop :=
  (g = true → rec.value < 0 →
    rec.Ho_after = rec.Ho_before ∧ rec.Hb_after = rec.Hb_before) ∧
  ((g = false ∨ 0 ≤ rec.value) →
    (rec.channel = "Bitstring" →
      rec.Hb_after = min rec.value rec.Hb_before ∧ rec.Ho_after = rec.Ho_before) ∧
    (rec.channel ≠ "Bitstring" →
      rec.Ho_after = min rec.value rec.Ho_before ∧ rec.Hb_after = rec.Hb_before))

/-- What one Non-IID section guarantees about each invocation record it emits:
the estimator name, the channel/guard correspondence, and the `recHalf`
update discipline. -/
def recOK (names : List String) (g bsg lg : Bool) (rec : InvocationRec) : Prop :=
  rec.est ∈ names ∧
  ((rec.channel = "Bitstring" ∧ bsg = true) ∨ (rec.channel = "Literal" ∧ lg = true)) ∧
  recHalf g rec

/-- The channel-selection and sentinel policy of the whole Non-IID pipeline,
as a property of one invocation record (`A` = alphabet size, `b` =
`initial_entropy`). -/
def recMaster (A : ℕ) (b : Bool) (rec : InvocationRec) : Prop :=
  (rec.channel = "Bitstring" ∨ rec.channel = "Literal") ∧
  (rec.channel = "Literal" → b = true) ∧
  (rec.channel = "Bitstring" → 2 < A ∨ b = false) ∧
  ((rec.est = "Collision Test" ∨ rec.est = "Markov Test" ∨
    rec.est = "Compression Test") → rec.channel = "Literal" → A = 2) ∧
  ((rec.est = "Compression Test" ∨ rec.est = "t-Tuple Test" ∨ rec.est = "LRS Test" ∨
    rec.est = "Multi Most Common in Window Test" ∨ rec.est = "Lag Prediction Test" ∨
    rec.est = "Multi Markov Model with Counting Test" ∨ rec.est = "LZ78Y Test") →
    rec.value < 0 →
    rec.Ho_after = rec.Ho_before ∧ rec.Hb_after = rec.Hb_before) ∧
  ((rec.est = "Most Common Value" ∨ rec.est = "Collision Test" ∨
    rec.est = "Markov Test") →
    (rec.channel = "Bitstring" →
      rec.Hb_after = min rec.value rec.Hb_before ∧ rec.Ho_after = rec.Ho_before) ∧
    (rec.channel = "Literal" →
      rec.Ho_after = min rec.value rec.Ho_before ∧ rec.Hb_after = rec.Hb_before))

/-- The Non-IID combination rule (wrapper.cpp:498-504): start from `word_size`,
intersect with `H_bitstring * word_size` when the bitstring channel was in
scope, intersect with `H_original` when `initial_entropy`. -/
def combineNI (ws A : ℕ) (b : Bool) (Hb Ho : ℚ) : ℚ :=
  let h1 : ℚ := (ws : ℚ)
  let h2 := if 2 < A ∨ b = false then min h1 (Hb * (ws : ℚ)) else h1
  if b = true then min h2 Ho else h2

/-- The IID combination rule (wrapper.cpp:262-266): like `combineNI` but the
bitstring channel is in scope exactly when `alph_size > 2`, and `H_original`
always intersects. -/
def combineIID (ws A : ℕ) (Hb Ho : ℚ) : ℚ :=
  let h1 : ℚ := (ws : ℚ)
  let h2 := if 2 < A then min h1 (Hb * (ws : ℚ)) else h1
  min h2 Ho

/-- Every recorded estimator outcome carries
`is_entropy_valid = (entropy_estimate >= 0)`. -/
def estOK (r : EntropyResult) : Prop :=
  ∀ er ∈ r.estimators, er.is_entropy_valid = decide (0 ≤ er.entropy_estimate)

/-- The word-size-masked (pre-compaction) values of a prepared sample: what the
source leaves in `rawsymbols[i] & mask` and initially in `symbols`. -/
def maskedValues (data : List ℕ) (bps : ℕ) : List ℕ :=
  data.map (fun b => b &&& (2 ^ (prepare_data data bps).word_size - 1))

/-- The compaction mapping of a prepared sample, as built in
`symbol_map_down_table`. -/
def compactionMap (data : List ℕ) (bps : ℕ) : ℕ → ℕ :=
  symbolMapDown (maskedValues data bps) (2 ^ (prepare_data data bps).word_size)

lemma eseq_ok {α β : Type} {x : Except String α} {f : α → Except String β} {b : β}
    (h : eseq x f = .ok b) : ∃ a, x = .ok a ∧ f a = .ok b := by
  cases x with
  | error e => simp [eseq] at h
  | ok a => exact ⟨a, rfl, h⟩

lemma apply_call_trace (n ch : String) (g : Bool) (v : ℚ) (st : NIState) (e0 : ℚ) :
    ∃ rec : InvocationRec,
      (apply_call n ch g v st e0).1.res.trace = st.res.trace ++ [rec] ∧
      (apply_call n ch g v st e0).1.res.estimators = st.res.estimators ∧
      rec.est = n ∧ rec.channel = ch ∧ rec.value = v ∧
      recHalf g rec := by
  unfold apply_call
  split
  · next hcond =>
    refine ⟨⟨n, ch, v, st.Ho, st.Ho, st.Hb, st.Hb⟩,
      by simp [record], by simp [record], rfl, rfl, rfl, ?_, ?_⟩
    · intro _ _; exact ⟨rfl, rfl⟩
    · rcases Bool.and_eq_true .. ▸ hcond with ⟨hg, hv⟩
      intro habs
      rcases habs with hgf | hge
      · rw [hg] at hgf; cases hgf
      · exact absurd hge (not_le.mpr (of_decide_eq_true hv))
  · next hcond =>
    split
    · next hch =>
      refine ⟨⟨n, ch, v, st.Ho, st.Ho, st.Hb, min v st.Hb⟩,
        by simp [record], by simp [record], rfl, rfl, rfl, ?_, ?_⟩
      · intro hg hv
        rw [hg] at hcond
        simp only [Bool.true_and, decide_eq_true_eq] at hcond
        exact absurd hv hcond
      · intro _
        exact ⟨fun _ => ⟨rfl, rfl⟩, fun hne => absurd hch hne⟩
    · next hch =>
      refine ⟨⟨n, ch, v, st.Ho, min v st.Ho, st.Hb, st.Hb⟩,
        by simp [record], by simp [record], rfl, rfl, rfl, ?_, ?_⟩
      · intro hg hv
        rw [hg] at hcond
        simp only [Bool.true_and, decide_eq_true_eq] at hcond
        exact absurd hv hcond
      · intro _
        exact ⟨fun hc => absurd hc hch, fun _ => ⟨rfl, rfl⟩⟩

lemma ni_call_ok {n ch : String} {g : Bool} {c : Except String ℚ} {st : NIState}
    {e0 : ℚ} {out : NIState × ℚ} (h : ni_call n ch g c st e0 = .ok out) :
    ∃ v, c = .ok v ∧ out = apply_call n ch g v st e0 := by
  cases c with
  | error e => simp [ni_call] at h
  | ok v =>
    refine ⟨v, rfl, ?_⟩
    simpa [ni_call] using h.symm

lemma add_estimator_trace (r : EntropyResult) (n : String) (e : ℚ) (p : Bool) :
    (add_estimator r n e p).trace = r.trace := by
  unfold add_estimator; split <;> rfl

lemma add_estimator_mem {r : EntropyResult} {n : String} {e : ℚ} {p : Bool} :
    ∀ er ∈ (add_estimator r n e p).estimators,
      er ∈ r.estimators ∨ er.is_entropy_valid = decide (0 ≤ er.entropy_estimate) := by
  unfold add_estimator
  split
  · exact fun er her => Or.inl her
  · intro er her
    rcases List.mem_append.mp her with her | her
    · exact Or.inl her
    · rw [List.mem_singleton] at her
      subst her
      exact Or.inr rfl

lemma add_test_result_trace (r : EntropyResult) (n : String) (p : Bool) :
    (add_test_result r n p).trace = r.trace := by
  unfold add_test_result; split <;> rfl

lemma add_test_result_mem {r : EntropyResult} {n : String} {p : Bool} :
    ∀ er ∈ (add_test_result r n p).estimators,
      er ∈ r.estimators ∨ er.is_entropy_valid = decide (0 ≤ er.entropy_estimate) := by
  unfold add_test_result
  split
  · exact fun er her => Or.inl her
  · intro er her
    rcases List.mem_append.mp her with her | her
    · exact Or.inl her
    · rw [List.mem_singleton] at her
      subst her
      simp

lemma ni_section_ok {n : String} {g bsg lg : Bool} {cb cl : Except String ℚ}
    {st st' : NIState} (h : ni_section n g bsg cb lg cl st = .ok st') :
    ∃ new, st'.res.trace = st.res.trace ++ new ∧
      (∀ rec ∈ new, recOK [n] g bsg lg rec) ∧
      (lg = true → ∃ rec ∈ new, rec.est = n ∧ rec.channel = "Literal") ∧
      (∀ er ∈ st'.res.estimators,
        er ∈ st.res.estimators ∨ er.is_entropy_valid = decide (0 ≤ er.entropy_estimate)) := by
  unfold ni_section at h
  obtain ⟨p1, hp1, h⟩ := eseq_ok h
  obtain ⟨p2, hp2, h⟩ := eseq_ok h
  injection h with h
  have K1 : ∃ new1, p1.1.res.trace = st.res.trace ++ new1 ∧
      p1.1.res.estimators = st.res.estimators ∧
      ∀ rec ∈ new1, recOK [n] g bsg lg rec := by
    by_cases hbsg : bsg = true
    · rw [if_pos hbsg] at hp1
      obtain ⟨v1, _, hp1e⟩ := ni_call_ok hp1
      obtain ⟨rec1, htr1, hes1, hn1, hch1, _, hhalf1⟩ :=
        apply_call_trace n "Bitstring" g v1 st (-1)
      refine ⟨[rec1], by rw [hp1e]; exact htr1, by rw [hp1e]; exact hes1, ?_⟩
      intro rec hrec
      rw [List.mem_singleton] at hrec
      subst hrec
      exact ⟨by simp [hn1], Or.inl ⟨hch1, hbsg⟩, hhalf1⟩
    · rw [if_neg hbsg] at hp1
      injection hp1 with hp1e
      rw [← hp1e]
      exact ⟨[], by simp, rfl, by simp⟩
  obtain ⟨new1, htrA, hesA, hrecA⟩ := K1
  have K2 : ∃ new2, p2.1.res.trace = p1.1.res.trace ++ new2 ∧
      p2.1.res.estimators = p1.1.res.estimators ∧
      (∀ rec ∈ new2, recOK [n] g bsg lg rec) ∧
      (lg = true → ∃ rec ∈ new2, rec.est = n ∧ rec.channel = "Literal") := by
    by_cases hlg : lg = true
    · rw [if_pos hlg] at hp2
      obtain ⟨v2, _, hp2e⟩ := ni_call_ok hp2
      obtain ⟨rec2, htr2, hes2, hn2, hch2, _, hhalf2⟩ :=
        apply_call_trace n "Literal" g v2 p1.1 p1.2
      refine ⟨[rec2], by rw [hp2e]; exact htr2, by rw [hp2e]; exact hes2, ?_, ?_⟩
      · intro rec hrec
        rw [List.mem_singleton] at hrec
        subst hrec
        exact ⟨by simp [hn2], Or.inr ⟨hch2, hlg⟩, hhalf2⟩
      · exact fun _ => ⟨rec2, List.mem_singleton.mpr rfl, hn2, hch2⟩
    · rw [if_neg hlg] at hp2
      injection hp2 with hp2e
      rw [← hp2e]
      exact ⟨[], by simp, rfl, by simp, fun hc => absurd hc hlg⟩
  obtain ⟨new2, htrB, hesB, hrecB, hexB⟩ := K2
  refine ⟨new1 ++ new2, ?_, ?_, ?_, ?_⟩
  · rw [← h]
    show (add_estimator p2.1.res n p2.2 _).trace = _
    rw [add_estimator_trace, htrB, htrA, List.append_assoc]
  · intro rec hrec
    rcases List.mem_append.mp hrec with hrec | hrec
    · exact hrecA _ hrec
    · exact hrecB _ hrec
  · intro hlg
    obtain ⟨rec2, hm, hfacts⟩ := hexB hlg
    exact ⟨rec2, List.mem_append_right _ hm, hfacts⟩
  · intro er her
    rw [← h] at her
    have her' := add_estimator_mem er her
    rcases her' with her' | her'
    · rw [hesB, hesA] at her'
      exact Or.inl her'
    · exact Or.inr her'

lemma sec_saalgs_ok {bsg lg : Bool} {cb cl : Except String (ℚ × ℚ)}
    {st st' : NIState} (h : sec_saalgs bsg cb lg cl st = .ok st') :
    ∃ new, st'.res.trace = st.res.trace ++ new ∧
      (∀ rec ∈ new, recOK ["t-Tuple Test", "LRS Test"] true bsg lg rec) ∧
      (∀ er ∈ st'.res.estimators,
        er ∈ st.res.estimators ∨ er.is_entropy_valid = decide (0 ≤ er.entropy_estimate)) := by
  unfold sec_saalgs at h
  obtain ⟨r1, hp1, h⟩ := eseq_ok h
  obtain ⟨r2, hp2, h⟩ := eseq_ok h
  injection h with h
  have K1 : ∃ new1, r1.1.res.trace = st.res.trace ++ new1 ∧
      r1.1.res.estimators = st.res.estimators ∧
      ∀ rec ∈ new1, recOK ["t-Tuple Test", "LRS Test"] true bsg lg rec := by
    by_cases hbsg : bsg = true
    · rw [if_pos hbsg] at hp1
      cases cb with
      | error e => simp [Except.map] at hp1
      | ok bv =>
        simp only [Except.map] at hp1
        injection hp1 with hp1e
        obtain ⟨rec1, htr1, hes1, hn1, hch1, _, hhalf1⟩ :=
          apply_call_trace "t-Tuple Test" "Bitstring" true bv.1 st (-1)
        obtain ⟨rec2, htr2, hes2, hn2, hch2, _, hhalf2⟩ :=
          apply_call_trace "LRS Test" "Bitstring" true bv.2
            (apply_call "t-Tuple Test" "Bitstring" true bv.1 st (-1)).1 (-1)
        refine ⟨[rec1, rec2], ?_, ?_, ?_⟩
        · rw [← hp1e]
          dsimp only
          rw [htr2, htr1]
          simp
        · rw [← hp1e]
          dsimp only
          rw [hes2, hes1]
        · intro rec hrec
          rw [List.mem_cons, List.mem_singleton] at hrec
          rcases hrec with hrec | hrec <;> subst hrec
          · exact ⟨by simp [hn1], Or.inl ⟨hch1, hbsg⟩, hhalf1⟩
          · exact ⟨by simp [hn2], Or.inl ⟨hch2, hbsg⟩, hhalf2⟩
    · rw [if_neg hbsg] at hp1
      injection hp1 with hp1e
      rw [← hp1e]
      exact ⟨[], by simp, rfl, by simp⟩
  obtain ⟨new1, htrA, hesA, hrecA⟩ := K1
  have K2 : ∃ new2, r2.1.res.trace = r1.1.res.trace ++ new2 ∧
      r2.1.res.estimators = r1.1.res.estimators ∧
      ∀ rec ∈ new2, recOK ["t-Tuple Test", "LRS Test"] true bsg lg rec := by
    by_cases hlg : lg = true
    · rw [if_pos hlg] at hp2
      cases cl with
      | error e => simp [Except.map] at hp2
      | ok lv =>
        simp only [Except.map] at hp2
        injection hp2 with hp2e
        obtain ⟨rec1, htr1, hes1, hn1, hch1, _, hhalf1⟩ :=
          apply_call_trace "t-Tuple Test" "Literal" true lv.1 r1.1 r1.2.1
        obtain ⟨rec2, htr2, hes2, hn2, hch2, _, hhalf2⟩ :=
          apply_call_trace "LRS Test" "Literal" true lv.2
            (apply_call "t-Tuple Test" "Literal" true lv.1 r1.1 r1.2.1).1 r1.2.2
        refine ⟨[rec1, rec2], ?_, ?_, ?_⟩
        · rw [← hp2e]
          dsimp only
          rw [htr2, htr1]
          simp
        · rw [← hp2e]
          dsimp only
          rw [hes2, hes1]
        · intro rec hrec
          rw [List.mem_cons, List.mem_singleton] at hrec
          rcases hrec with hrec | hrec <;> subst hrec
          · exact ⟨by simp [hn1], Or.inr ⟨hch1, hlg⟩, hhalf1⟩
          · exact ⟨by simp [hn2], Or.inr ⟨hch2, hlg⟩, hhalf2⟩
    · rw [if_neg hlg] at hp2
      injection hp2 with hp2e
      rw [← hp2e]
      exact ⟨[], by simp, rfl, by simp⟩
  obtain ⟨new2, htrB, hesB, hrecB⟩ := K2
  refine ⟨new1 ++ new2, ?_, ?_, ?_⟩
  · rw [← h]
    show (add_estimator (add_estimator r2.1.res _ _ _) _ _ _).trace = _
    rw [add_estimator_trace, add_estimator_trace, htrB, htrA, List.append_assoc]
  · intro rec hrec
    rcases List.mem_append.mp hrec with hrec | hrec
    · exact hrecA _ hrec
    · exact hrecB _ hrec
  · intro er her
    rw [← h] at her
    have her' := add_estimator_mem er her
    rcases her' with her' | her'
    · have her'' := add_estimator_mem er her'
      rcases her'' with her'' | her''
      · rw [hesB, hesA] at her''
        exact Or.inl her''
      · exact Or.inr her''
    · exact Or.inr her'

lemma recOK_to_master {A : ℕ} {b : Bool} {n : String} {g bsg lg : Bool}
    {rec : InvocationRec} (h : recOK [n] g bsg lg rec)
    (hbsg : bsg = true → 2 < A ∨ b = false)
    (hlg : lg = true → b = true)
    (hlg2 : (n = "Collision Test" ∨ n = "Markov Test" ∨ n = "Compression Test") →
      lg = true → A = 2)
    (hg7 : (n = "Compression Test" ∨ n = "t-Tuple Test" ∨ n = "LRS Test" ∨
      n = "Multi Most Common in Window Test" ∨ n = "Lag Prediction Test" ∨
      n = "Multi Markov Model with Counting Test" ∨ n = "LZ78Y Test") → g = true)
    (hg3 : (n = "Most Common Value" ∨ n = "Collision Test" ∨ n = "Markov Test") →
      g = false) :
    recMaster A b rec := by
  obtain ⟨hmem, hch, hhalf⟩ := h
  have hest : rec.est = n := by simpa using hmem
  refine ⟨?_, ?_, ?_, ?_, ?_, ?_⟩
  · rcases hch with ⟨h1, _⟩ | ⟨h1, _⟩
    · exact Or.inl h1
    · exact Or.inr h1
  · intro hl
    rcases hch with ⟨hb, _⟩ | ⟨_, hlg'⟩
    · rw [hb] at hl; exact absurd hl (by decide)
    · exact hlg hlg'
  · intro hbch
    rcases hch with ⟨_, hbsg'⟩ | ⟨hlit, _⟩
    · exact hbsg hbsg'
    · rw [hlit] at hbch; exact absurd hbch (by decide)
  · intro h3 hl
    rcases hch with ⟨hb, _⟩ | ⟨_, hlg'⟩
    · rw [hb] at hl; exact absurd hl (by decide)
    · exact hlg2 (hest ▸ h3) hlg'
  · intro h7 hv
    exact hhalf.1 (hg7 (hest ▸ h7)) hv
  · intro h3u
    have hg := hg3 (hest ▸ h3u)
    have h4 := hhalf.2 (Or.inl hg)
    refine ⟨h4.1, ?_⟩
    intro hl
    refine h4.2 ?_
    rw [hl]
    decide

lemma recOK_to_master_sa {A : ℕ} {b : Bool} {bsg lg : Bool} {rec : InvocationRec}
    (h : recOK ["t-Tuple Test", "LRS Test"] true bsg lg rec)
    (hbsg : bsg = true → 2 < A ∨ b = false)
    (hlg : lg = true → b = true) :
    recMaster A b rec := by
  obtain ⟨hmem, hch, hhalf⟩ := h
  have hest : rec.est = "t-Tuple Test" ∨ rec.est = "LRS Test" := by simpa using hmem
  refine ⟨?_, ?_, ?_, ?_, ?_, ?_⟩
  · rcases hch with ⟨h1, _⟩ | ⟨h1, _⟩
    · exact Or.inl h1
    · exact Or.inr h1
  · intro hl
    rcases hch with ⟨hb, _⟩ | ⟨_, hlg'⟩
    · rw [hb] at hl; exact absurd hl (by decide)
    · exact hlg hlg'
  · intro hbch
    rcases hch with ⟨_, hbsg'⟩ | ⟨hlit, _⟩
    · exact hbsg hbsg'
    · rw [hlit] at hbch; exact absurd hbch (by decide)
  · intro h3
    rcases hest with he | he <;> rw [he] at h3 <;>
      exact absurd h3 (by decide)
  · intro _ hv
    exact hhalf.1 rfl hv
  · intro h3u
    rcases hest with he | he <;> rw [he] at h3u <;>
      exact absurd h3u (by decide)

/-- The trace of a later state extends that of an earlier one. -/
lemma mem_trace_mono {st st' : NIState} {new : List InvocationRec}
    (h : st'.res.trace = st.res.trace ++ new) {rec : InvocationRec}
    (hm : rec ∈ st.res.trace) : rec ∈ st'.res.trace := by
  rw [h]; exact List.mem_append_left _ hm

lemma non_iid_master {E : Estimators} {data : List ℕ} {bps : ℤ} {b : Bool}
    {r : EntropyResult} (hr : calculate_non_iid_entropy_core E data bps b = r) :
    (r.error_code ≠ 0 →
      r.min_entropy = 0 ∧ r.h_original = 0 ∧ r.h_bitstring = 0 ∧
      r.h_assessed = 0 ∧ r.data_word_size = 0 ∧ r.trace = []) ∧
    (r.error_code = 0 →
      r.data_word_size = (prepare_data data bps.toNat).word_size ∧
      r.min_entropy = r.h_assessed ∧
      r.h_assessed = combineNI (prepare_data data bps.toNat).word_size
        (prepare_data data bps.toNat).alph_size b r.h_bitstring r.h_original ∧
      (∀ rec ∈ r.trace, recMaster (prepare_data data bps.toNat).alph_size b rec) ∧
      (b = true →
        (∃ rec ∈ r.trace,
          rec.est = "Multi Most Common in Window Test" ∧ rec.channel = "Literal") ∧
        (∃ rec ∈ r.trace,
          rec.est = "Lag Prediction Test" ∧ rec.channel = "Literal") ∧
        (∃ rec ∈ r.trace,
          rec.est = "Multi Markov Model with Counting Test" ∧
            rec.channel = "Literal") ∧
        (∃ rec ∈ r.trace, rec.est = "LZ78Y Test" ∧ rec.channel = "Literal"))) ∧
    estOK r := by
  rw [calculate_non_iid_entropy_core] at hr
  cases hb : non_iid_body E data bps b with
  | error e =>
    rw [hb] at hr
    dsimp only at hr
    subst hr
    refine ⟨fun _ => ⟨rfl, rfl, rfl, rfl, rfl, rfl⟩, fun h0 => ?_, ?_⟩
    · simp [set_error, create_result] at h0
    · intro er her
      exact absurd her (List.not_mem_nil _)
  | ok r0 =>
    rw [hb] at hr
    dsimp only at hr
    subst hr
    simp only [non_iid_body] at hb
    split at hb
    · injection hb with hb
      subst hb
      refine ⟨fun _ => ⟨rfl, rfl, rfl, rfl, rfl, rfl⟩, fun h0 => absurd h0 (by decide), ?_⟩
      intro er her
      exact absurd her (List.not_mem_nil _)
    · split at hb
      · injection hb with hb
        subst hb
        refine ⟨fun _ => ⟨rfl, rfl, rfl, rfl, rfl, rfl⟩,
          fun h0 => absurd h0 (by decide), ?_⟩
        intro er her
        exact absurd her (List.not_mem_nil _)
      · split at hb
        · injection hb with hb
          subst hb
          refine ⟨fun _ => ⟨rfl, rfl, rfl, rfl, rfl, rfl⟩,
            fun h0 => absurd h0 (by decide), ?_⟩
          intro er her
          exact absurd her (List.not_mem_nil _)
        · obtain ⟨st1, h1, hb⟩ := eseq_ok hb
          obtain ⟨st2, h2, hb⟩ := eseq_ok hb
          obtain ⟨st3, h3, hb⟩ := eseq_ok hb
          obtain ⟨st4, h4, hb⟩ := eseq_ok hb
          obtain ⟨st5, h5, hb⟩ := eseq_ok hb
          obtain ⟨st6, h6, hb⟩ := eseq_ok hb
          obtain ⟨st7, h7, hb⟩ := eseq_ok hb
          obtain ⟨st8, h8, hb⟩ := eseq_ok hb
          obtain ⟨st9, h9, hb⟩ := eseq_ok hb
          injection hb with hb
          subst hb
          obtain ⟨new1, htr1, hrec1, _, hest1⟩ := ni_section_ok h1
          obtain ⟨new2, htr2, hrec2, _, hest2⟩ := ni_section_ok h2
          obtain ⟨new3, htr3, hrec3, _, hest3⟩ := ni_section_ok h3
          obtain ⟨new4, htr4, hrec4, _, hest4⟩ := ni_section_ok h4
          obtain ⟨new5, htr5, hrec5, hest5⟩ := sec_saalgs_ok h5
          obtain ⟨new6, htr6, hrec6, hex6, hest6⟩ := ni_section_ok h6
          obtain ⟨new7, htr7, hrec7, hex7, hest7⟩ := ni_section_ok h7
          obtain ⟨new8, htr8, hrec8, hex8, hest8⟩ := ni_section_ok h8
          obtain ⟨new9, htr9, hrec9, hex9, hest9⟩ := ni_section_ok h9
          have hbsgI : (decide (2 < (prepare_data data bps.toNat).alph_size) || !b)
              = true →
              2 < (prepare_data data bps.toNat).alph_size ∨ b = false := by
            intro hx
            simpa using hx
          have hlitI : (b && decide ((prepare_data data bps.toNat).alph_size = 2))
              = true →
              b = true := by
            intro hx
            simp at hx
            exact hx.1
          have hlit2I : (b && decide ((prepare_data data bps.toNat).alph_size = 2))
              = true →
              (prepare_data data bps.toNat).alph_size = 2 := by
            intro hx
            simp at hx
            exact hx.2
          have step : ∀ {stA stB : NIState} {new : List InvocationRec},
              stB.res.trace = stA.res.trace ++ new →
              (∀ rec ∈ stA.res.trace,
                recMaster (prepare_data data bps.toNat).alph_size b rec) →
              (∀ rec ∈ new,
                recMaster (prepare_data data bps.toNat).alph_size b rec) →
              ∀ rec ∈ stB.res.trace,
                recMaster (prepare_data data bps.toNat).alph_size b rec := by
            intro stA stB new htr hA hN rec hrec
            rw [htr] at hrec
            rcases List.mem_append.mp hrec with hm | hm
            · exact hA _ hm
            · exact hN _ hm
          have P0 : ∀ rec ∈ (⟨((prepare_data data bps.toNat).word_size : ℚ), 1,
              create_result⟩ : NIState).res.trace,
              recMaster (prepare_data data bps.toNat).alph_size b rec := by
            intro rec hrec
            exact absurd hrec (List.not_mem_nil _)
          have P1 := step htr1 P0 (fun rec hm =>
            recOK_to_master (hrec1 rec hm) hbsgI (fun hx => hx)
              (fun hx => absurd hx (by decide))
              (fun hx => absurd hx (by decide)) (fun _ => rfl))
          have P2 := step htr2 P1 (fun rec hm =>
            recOK_to_master (hrec2 rec hm) hbsgI hlitI
              (fun _ => hlit2I)
              (fun hx => absurd hx (by decide)) (fun _ => rfl))
          have P3 := step htr3 P2 (fun rec hm =>
            recOK_to_master (hrec3 rec hm) hbsgI hlitI
              (fun _ => hlit2I)
              (fun hx => absurd hx (by decide)) (fun _ => rfl))
          have P4 := step htr4 P3 (fun rec hm =>
            recOK_to_master (hrec4 rec hm) hbsgI hlitI
              (fun _ => hlit2I)
              (fun _ => rfl) (fun hx => absurd hx (by decide)))
          have P5 := step htr5 P4 (fun rec hm =>
            recOK_to_master_sa (hrec5 rec hm) hbsgI (fun hx => hx))
          have P6 := step htr6 P5 (fun rec hm =>
            recOK_to_master (hrec6 rec hm) hbsgI (fun hx => hx)
              (fun hx => absurd hx (by decide))
              (fun _ => rfl) (fun hx => absurd hx (by decide)))
          have P7 := step htr7 P6 (fun rec hm =>
            recOK_to_master (hrec7 rec hm) hbsgI (fun hx => hx)
              (fun hx => absurd hx (by decide))
              (fun _ => rfl) (fun hx => absurd hx (by decide)))
          have P8 := step htr8 P7 (fun rec hm =>
            recOK_to_master (hrec8 rec hm) hbsgI (fun hx => hx)
              (fun hx => absurd hx (by decide))
              (fun _ => rfl) (fun hx => absurd hx (by decide)))
          have P9 := step htr9 P8 (fun rec hm =>
            recOK_to_master (hrec9 rec hm) hbsgI (fun hx => hx)
              (fun hx => absurd hx (by decide))
              (fun _ => rfl) (fun hx => absurd hx (by decide)))
          have V1 : ∀ er ∈ st1.res.estimators,
              er.is_entropy_valid = decide (0 ≤ er.entropy_estimate) := by
            intro er her
            rcases hest1 er her with h' | h'
            · exact absurd h' (List.not_mem_nil _)
            · exact h'
          have V2 : ∀ er ∈ st2.res.estimators,
              er.is_entropy_valid = decide (0 ≤ er.entropy_estimate) :=
            fun er her => (hest2 er her).elim (fun h' => V1 er h') id
          have V3 := fun er her => (hest3 er her).elim (fun h' => V2 er h') id
          have V4 := fun er her => (hest4 er her).elim (fun h' => V3 er h') id
          have V5 := fun er her => (hest5 er her).elim (fun h' => V4 er h') id
          have V6 := fun er her => (hest6 er her).elim (fun h' => V5 er h') id
          have V7 := fun er her => (hest7 er her).elim (fun h' => V6 er h') id
          have V8 := fun er her => (hest8 er her).elim (fun h' => V7 er h') id
          have V9 := fun er her => (hest9 er her).elim (fun h' => V8 er h') id
          refine ⟨fun hne => absurd rfl hne, fun _ => ⟨rfl, rfl, ?_, ?_, ?_⟩, ?_⟩
          · dsimp only
            cases b <;>
              by_cases hA : 2 < (prepare_data data bps.toNat).alph_size <;>
              simp [hA, combineNI]
          · exact P9
          · intro hbt
            refine ⟨?_, ?_, ?_, ?_⟩
            · obtain ⟨rec, hm, hfact⟩ := hex6 hbt
              exact ⟨rec, mem_trace_mono htr9 (mem_trace_mono htr8
                (mem_trace_mono htr7 (htr6 ▸ List.mem_append_right _ hm))), hfact⟩
            · obtain ⟨rec, hm, hfact⟩ := hex7 hbt
              exact ⟨rec, mem_trace_mono htr9 (mem_trace_mono htr8
                (htr7 ▸ List.mem_append_right _ hm)), hfact⟩
            · obtain ⟨rec, hm, hfact⟩ := hex8 hbt
              exact ⟨rec, mem_trace_mono htr9
                (htr8 ▸ List.mem_append_right _ hm), hfact⟩
            · obtain ⟨rec, hm, hfact⟩ := hex9 hbt
              exact ⟨rec, htr9 ▸ List.mem_append_right _ hm, hfact⟩
          · exact V9

lemma iid_master {E : Estimators} {data : List ℕ} {bps : ℤ} {ib : Bool}
    {r : EntropyResult} (hr : calculate_iid_entropy_core E data bps ib = r) :
    (r.error_code ≠ 0 →
      r.min_entropy = 0 ∧ r.h_original = 0 ∧ r.h_bitstring = 0 ∧
      r.h_assessed = 0 ∧ r.data_word_size = 0 ∧ r.trace = []) ∧
    (r.error_code = 0 →
      r.data_word_size = (prepare_data data bps.toNat).word_size ∧
      r.min_entropy = r.h_assessed ∧
      r.h_assessed = combineIID (prepare_data data bps.toNat).word_size
        (prepare_data data bps.toNat).alph_size r.h_bitstring r.h_original ∧
      r.trace = []) ∧
    estOK r := by
  rw [calculate_iid_entropy_core] at hr
  cases hb : iid_body E data bps with
  | error e =>
    rw [hb] at hr
    dsimp only at hr
    subst hr
    refine ⟨fun _ => ⟨rfl, rfl, rfl, rfl, rfl, rfl⟩, fun h0 => ?_, ?_⟩
    · simp [set_error, create_result] at h0
    · intro er her
      exact absurd her (List.not_mem_nil _)
  | ok r0 =>
    rw [hb] at hr
    dsimp only at hr
    subst hr
    simp only [iid_body] at hb
    split at hb
    · injection hb with hb
      subst hb
      refine ⟨fun _ => ⟨rfl, rfl, rfl, rfl, rfl, rfl⟩, fun h0 => absurd h0 (by decide), ?_⟩
      intro er her
      exact absurd her (List.not_mem_nil _)
    · split at hb
      · injection hb with hb
        subst hb
        refine ⟨fun _ => ⟨rfl, rfl, rfl, rfl, rfl, rfl⟩,
          fun h0 => absurd h0 (by decide), ?_⟩
        intro er her
        exact absurd her (List.not_mem_nil _)
      · split at hb
        · injection hb with hb
          subst hb
          refine ⟨fun _ => ⟨rfl, rfl, rfl, rfl, rfl, rfl⟩,
            fun h0 => absurd h0 (by decide), ?_⟩
          intro er her
          exact absurd her (List.not_mem_nil _)
        · obtain ⟨Ho, hc1, hb⟩ := eseq_ok hb
          obtain ⟨Hb, hc2, hb⟩ := eseq_ok hb
          obtain ⟨chi, hc3, hb⟩ := eseq_ok hb
          obtain ⟨lrs, hc4, hb⟩ := eseq_ok hb
          obtain ⟨perm, hc5, hb⟩ := eseq_ok hb
          injection hb with hb
          subst hb
          have htr : (add_test_result (add_test_result (add_test_result
              (add_estimator create_result "Most Common Value" Ho true)
              "Chi-Square Tests" chi)
              "Length of Longest Repeated Substring Test" lrs)
              "Permutation Tests" perm).trace = [] := by
            rw [add_test_result_trace, add_test_result_trace, add_test_result_trace,
              add_estimator_trace]
            rfl
          refine ⟨fun hne => absurd rfl hne, fun _ => ⟨rfl, rfl, ?_, ?_⟩, ?_⟩
          · dsimp only
            by_cases hA : 2 < (prepare_data data bps.toNat).alph_size <;>
              simp [hA, combineIID]
          · exact htr
          · intro er her
            rcases add_test_result_mem er her with h' | h'
            · rcases add_test_result_mem er h' with h' | h'
              · rcases add_test_result_mem er h' with h' | h'
                · rcases add_estimator_mem er h' with h' | h'
                  · exact absurd h' (List.not_mem_nil _)
                  · exact h'
                · exact h'
              · exact h'
            · exact h'

lemma prepare_data_word_size (data : List ℕ) (bps : ℕ) :
    (prepare_data data bps).word_size =
      if bps = 0 then detect_word_size (data.foldl (fun a b => a ||| b) 0) else bps := rfl

lemma prepare_data_len (data : List ℕ) (bps : ℕ) :
    (prepare_data data bps).len = data.length := rfl

lemma prepare_data_rawsymbols (data : List ℕ) (bps : ℕ) :
    (prepare_data data bps).rawsymbols = data := rfl

lemma prepare_data_blen (data : List ℕ) (bps : ℕ) :
    (prepare_data data bps).blen = data.length * (prepare_data data bps).word_size := rfl

lemma prepare_data_maxsymbol (data : List ℕ) (bps : ℕ) :
    (prepare_data data bps).maxsymbol =
      (data.map (fun b => b &&& (2 ^ (prepare_data data bps).word_size - 1))).foldl
        (fun m s => if m < s then s else m) 0 := rfl

lemma prepare_data_alph (data : List ℕ) (bps : ℕ) :
    (prepare_data data bps).alph_size =
      (occList (data.map (fun b => b &&& (2 ^ (prepare_data data bps).word_size - 1)))
        (2 ^ (prepare_data data bps).word_size)).length := rfl

lemma prepare_data_symbols (data : List ℕ) (bps : ℕ) :
    (prepare_data data bps).symbols =
      (if (prepare_data data bps).alph_size < (prepare_data data bps).maxsymbol + 1 then
        (data.map (fun b => b &&& (2 ^ (prepare_data data bps).word_size - 1))).map
          (symbolMapDown
            (data.map (fun b => b &&& (2 ^ (prepare_data data bps).word_size - 1)))
            (2 ^ (prepare_data data bps).word_size))
      else data.map (fun b => b &&& (2 ^ (prepare_data data bps).word_size - 1))) := rfl

lemma prepare_data_bsymbols (data : List ℕ) (bps : ℕ) :
    (prepare_data data bps).bsymbols =
      (if (prepare_data data bps).word_size = 1 then (prepare_data data bps).symbols
       else ((data.map (fun b => b &&& (2 ^ (prepare_data data bps).word_size - 1))).map
          (bitExpand (prepare_data data bps).word_size)).flatten) := rfl

lemma and_lt_two_pow (b ws : ℕ) : b &&& (2 ^ ws - 1) < 2 ^ ws := by
  have h1 : b &&& (2 ^ ws - 1) ≤ 2 ^ ws - 1 := Nat.and_le_right
  have h2 : 0 < 2 ^ ws := Nat.pos_pow_of_pos ws (by norm_num)
  omega

lemma mem_occList {l : List ℕ} {n v : ℕ} : v ∈ occList l n ↔ v < n ∧ v ∈ l := by
  simp [occList, List.mem_filter, List.mem_range, List.contains, List.elem_iff]

lemma occList_nodup (l : List ℕ) (n : ℕ) : (occList l n).Nodup :=
  List.Pairwise.filter _ (List.nodup_range n)

lemma occList_sorted (l : List ℕ) (n : ℕ) : (occList l n).Sorted (· < ·) :=
  List.Pairwise.filter _ (List.sorted_lt_range n)

lemma occList_length_eq_dedup {l : List ℕ} {n : ℕ} (h : ∀ x ∈ l, x < n) :
    (occList l n).length = l.dedup.length := by
  have hnd := occList_nodup l n
  have hfs : (occList l n).toFinset = l.toFinset := by
    ext x
    simp only [List.mem_toFinset, mem_occList]
    exact ⟨fun hx => hx.2, fun hx => ⟨h x hx, hx⟩⟩
  calc (occList l n).length
      = (occList l n).toFinset.card := (List.toFinset_card_of_nodup hnd).symm
    _ = l.toFinset.card := by rw [hfs]
    _ = l.dedup.length := List.card_toFinset l

lemma sorted_indexOf_lt {l : List ℕ} (hs : l.Sorted (· < ·)) {v w : ℕ}
    (hv : v ∈ l) (hw : w ∈ l) : l.indexOf v < l.indexOf w ↔ v < w := by
  have hm := List.Sorted.get_strictMono hs
  have hlv := List.indexOf_lt_length.mpr hv
  have hlw := List.indexOf_lt_length.mpr hw
  have hgv : l.get ⟨l.indexOf v, hlv⟩ = v := List.indexOf_get hlv
  have hgw : l.get ⟨l.indexOf w, hlw⟩ = w := List.indexOf_get hlw
  constructor
  · intro hlt
    have : (⟨l.indexOf v, hlv⟩ : Fin l.length) < ⟨l.indexOf w, hlw⟩ := hlt
    have := hm this
    rwa [hgv, hgw] at this
  · intro hlt
    have : l.get ⟨l.indexOf v, hlv⟩ < l.get ⟨l.indexOf w, hlw⟩ := by
      rw [hgv, hgw]; exact hlt
    exact hm.lt_iff_lt.mp this

lemma foldl_max_eq (l : List ℕ) (a : ℕ) :
    l.foldl (fun m s => if m < s then s else m) a = l.foldl max a := by
  induction l generalizing a with
  | nil => rfl
  | cons x t ih =>
    simp only [List.foldl_cons]
    rw [ih]
    congr 1
    by_cases h : a < x
    · rw [if_pos h, max_eq_right (le_of_lt h)]
    · rw [if_neg h, max_eq_left (le_of_not_lt h)]

lemma init_le_foldl_max (l : List ℕ) (a : ℕ) : a ≤ l.foldl max a := by
  induction l generalizing a with
  | nil => exact le_refl a
  | cons x t ih => exact le_trans (le_max_left a x) (ih (max a x))

lemma mem_le_foldl_max {l : List ℕ} {a : ℕ} : ∀ x ∈ l, x ≤ l.foldl max a := by
  induction l generalizing a with
  | nil => intro x hx; exact absurd hx (List.not_mem_nil _)
  | cons y t ih =>
    intro x hx
    rcases List.mem_cons.mp hx with hx | hx
    · subst hx
      exact le_trans (le_max_right a x) (init_le_foldl_max t (max a x))
    · exact ih x hx

lemma mem_le_maxsymbol {data : List ℕ} {bps : ℕ} :
    ∀ x ∈ data.map (fun b => b &&& (2 ^ (prepare_data data bps).word_size - 1)),
      x ≤ (prepare_data data bps).maxsymbol := by
  intro x hx
  rw [prepare_data_maxsymbol, foldl_max_eq]
  exact mem_le_foldl_max x hx

lemma indexOf_range {v n : ℕ} (h : v < n) : (List.range n).indexOf v = v := by
  have hv : v < (List.range n).length := by simpa using h
  have hg : (List.range n).get ⟨v, hv⟩ = v := List.get_range _ _
  have := List.get_indexOf (List.nodup_range n) ⟨v, hv⟩
  rwa [hg] at this

lemma occList_dense {l : List ℕ} {n M : ℕ} (hM : ∀ x ∈ l, x ≤ M)
    (hlen : M + 1 ≤ (occList l n).length) :
    ∀ v ∈ l, (occList l n).indexOf v = v := by
  have hnd := occList_nodup l n
  have hsub : (occList l n).toFinset ⊆ Finset.range (M + 1) := by
    intro x hx
    rw [List.mem_toFinset, mem_occList] at hx
    rw [Finset.mem_range]
    exact Nat.lt_succ_of_le (hM x hx.2)
  have hcard : ((occList l n).toFinset).card = (occList l n).length :=
    List.toFinset_card_of_nodup hnd
  have hfeq : (occList l n).toFinset = Finset.range (M + 1) :=
    Finset.eq_of_subset_of_card_le hsub (by rw [hcard, Finset.card_range]; exact hlen)
  have hperm : List.Perm (occList l n) (List.range (M + 1)) := by
    rw [List.perm_ext_iff_of_nodup hnd (List.nodup_range (M + 1))]
    intro a
    constructor
    · intro ha
      have : a ∈ (occList l n).toFinset := List.mem_toFinset.mpr ha
      rw [hfeq, Finset.mem_range] at this
      simpa using this
    · intro ha
      have : a ∈ Finset.range (M + 1) := by simpa using ha
      rw [← hfeq, List.mem_toFinset] at this
      exact this
  have heq : occList l n = List.range (M + 1) :=
    List.eq_of_perm_of_sorted hperm (occList_sorted l n) (List.sorted_lt_range (M + 1))
  intro v hv
  rw [heq]
  exact indexOf_range (Nat.lt_succ_of_le (hM v hv))

lemma maskedValues_lt (data : List ℕ) (bps : ℕ) :
    ∀ x ∈ maskedValues data bps, x < 2 ^ (prepare_data data bps).word_size := by
  intro x hx
  obtain ⟨b, _, rfl⟩ := List.mem_map.mp hx
  exact and_lt_two_pow b _

lemma compactionMap_lt {data : List ℕ} {bps : ℕ} :
    ∀ v ∈ maskedValues data bps,
      compactionMap data bps v < (prepare_data data bps).alph_size := by
  intro v hv
  rw [prepare_data_alph]
  exact List.indexOf_lt_length.mpr
    (mem_occList.mpr ⟨maskedValues_lt data bps v hv, hv⟩)

lemma compactionMap_dense {data : List ℕ} {bps : ℕ}
    (h : ¬ (prepare_data data bps).alph_size < (prepare_data data bps).maxsymbol + 1) :
    ∀ v ∈ maskedValues data bps, compactionMap data bps v = v := by
  have halph : (prepare_data data bps).maxsymbol + 1 ≤
      (occList (maskedValues data bps)
        (2 ^ (prepare_data data bps).word_size)).length := by
    simp only [maskedValues]
    rw [← prepare_data_alph]
    omega
  exact occList_dense mem_le_maxsymbol halph

lemma prepare_data_symbols_map (data : List ℕ) (bps : ℕ) :
    (prepare_data data bps).symbols =
      (maskedValues data bps).map (compactionMap data bps) := by
  rw [prepare_data_symbols]
  split
  · rfl
  · next h =>
    have hd := compactionMap_dense h
    calc (maskedValues data bps : List ℕ)
        = (maskedValues data bps).map id := (List.map_id _).symm
      _ = (maskedValues data bps).map (compactionMap data bps) := by
          apply List.map_congr_left
          intro v hv
          exact (hd v hv).symm

/-- C7: the alphabet construction of `prepare_data` — `alph_size` counts the
distinct masked values, `symbols` is the image of the masked values under the
compaction mapping, that mapping sends occurring values strictly monotonically
onto `[0, alph_size)`, and when no value in the observed range is missing
(`alph_size = maxsymbol + 1`) the masked values are already dense, the mapping
is the identity on them, and no rewrite is needed. -/
theorem c7_alphabet_compaction (data : List ℕ) (bps : ℕ) :
    (prepare_data data bps).alph_size = (maskedValues data bps).dedup.length ∧
    (∀ s ∈ (prepare_data data bps).symbols, s < (prepare_data data bps).alph_size) ∧
    (prepare_data data bps).symbols =
      (maskedValues data bps).map (compactionMap data bps) ∧
    (∀ v ∈ maskedValues data bps,
      compactionMap data bps v < (prepare_data data bps).alph_size) ∧
    (∀ v ∈ maskedValues data bps, ∀ w ∈ maskedValues data bps,
      (compactionMap data bps v < compactionMap data bps w ↔ v < w)) ∧
    (∀ k < (prepare_data data bps).alph_size,
      ∃ v ∈ maskedValues data bps, compactionMap data bps v = k) ∧
    (¬ (prepare_data data bps).alph_size < (prepare_data data bps).maxsymbol + 1 →
      (prepare_data data bps).symbols = maskedValues data bps ∧
      ∀ v ∈ maskedValues data bps, compactionMap data bps v = v) := by
  refine ⟨?_, ?_, prepare_data_symbols_map data bps, compactionMap_lt, ?_, ?_, ?_⟩
  · rw [prepare_data_alph]
    exact occList_length_eq_dedup (maskedValues_lt data bps)
  · intro s hs
    rw [prepare_data_symbols_map] at hs
    obtain ⟨v, hv, rfl⟩ := List.mem_map.mp hs
    exact compactionMap_lt v hv
  · intro v hv w hw
    exact sorted_indexOf_lt (occList_sorted _ _)
      (mem_occList.mpr ⟨maskedValues_lt data bps v hv, hv⟩)
      (mem_occList.mpr ⟨maskedValues_lt data bps w hw, hw⟩)
  · intro k hk
    rw [prepare_data_alph] at hk
    refine ⟨(occList (maskedValues data bps)
      (2 ^ (prepare_data data bps).word_size)).get ⟨k, hk⟩, ?_, ?_⟩
    · exact (mem_occList.mp (List.get_mem _ k hk)).2
    · exact List.get_indexOf (occList_nodup _ _) ⟨k, hk⟩
  · intro h
    refine ⟨?_, compactionMap_dense h⟩
    rw [prepare_data_symbols]
    exact if_neg h

lemma combineNI_le_ws (ws A : ℕ) (b : Bool) (Hb Ho : ℚ) :
    combineNI ws A b Hb Ho ≤ (ws : ℚ) := by
  unfold combineNI
  split_ifs with hb hc hc
  · exact le_trans (min_le_left _ _) (min_le_left _ _)
  · exact min_le_left _ _
  · exact min_le_left _ _
  · exact le_refl _

lemma combineIID_le_ws (ws A : ℕ) (Hb Ho : ℚ) :
    combineIID ws A Hb Ho ≤ (ws : ℚ) := by
  unfold combineIID
  split_ifs with hc
  · exact le_trans (min_le_left _ _) (min_le_left _ _)
  · exact min_le_left _ _

lemma bitExpand_one (x : ℕ) : bitExpand 1 x = [x &&& 1] := rfl

lemma flatten_expand_length (l : List ℕ) (ws : ℕ) :
    ((l.map (bitExpand ws)).flatten).length = l.length * ws := by
  induction l with
  | nil => simp
  | cons x t ih =>
    simp only [List.map_cons, List.flatten_cons, List.length_append, ih,
      List.length_cons]
    simp [bitExpand, Nat.succ_mul, Nat.add_comm]

lemma flatten_singleton_map (l : List ℕ) (g : ℕ → ℕ) :
    ((l.map (fun x => [g x])).flatten) = l.map g := by
  induction l with
  | nil => rfl
  | cons x t ih => simp [ih]

lemma and_one_of_le_one {x : ℕ} (h : x ≤ 1) : x &&& 1 = x := by
  rcases Nat.le_one_iff_eq_zero_or_eq_one.mp h with rfl | rfl <;> rfl

/-- C1 (amended): every literal-channel invocation in the Non-IID pipeline
happens only in `initial_entropy` mode, and among the seven estimators only
collision, Markov and compression additionally require `alph_size == 2`; the
four predictors (multi-MCW, lag, multi-MMC, LZ78Y) are invoked on the literal
channel on every successful `initial_entropy` run, whatever the alphabet
size. -/
theorem c1_literal_channel_policy (E : Estimators) (data : List ℕ) (bps : ℤ)
    (b : Bool) :
    (∀ rec ∈ (calculate_non_iid_entropy_core E data bps b).trace,
      rec.channel = "Literal" →
        b = true ∧
        ((rec.est = "Collision Test" ∨ rec.est = "Markov Test" ∨
          rec.est = "Compression Test") →
          (prepare_data data bps.toNat).alph_size = 2)) ∧
    ((calculate_non_iid_entropy_core E data bps b).error_code = 0 → b = true →
      (∃ rec ∈ (calculate_non_iid_entropy_core E data bps b).trace,
        rec.est = "Multi Most Common in Window Test" ∧ rec.channel = "Literal") ∧
      (∃ rec ∈ (calculate_non_iid_entropy_core E data bps b).trace,
        rec.est = "Lag Prediction Test" ∧ rec.channel = "Literal") ∧
      (∃ rec ∈ (calculate_non_iid_entropy_core E data bps b).trace,
        rec.est = "Multi Markov Model with Counting Test" ∧
          rec.channel = "Literal") ∧
      (∃ rec ∈ (calculate_non_iid_entropy_core E data bps b).trace,
        rec.est = "LZ78Y Test" ∧ rec.channel = "Literal")) := by
  have m := non_iid_master (rfl :
    calculate_non_iid_entropy_core E data bps b = _)
  constructor
  · intro rec hm hlit
    by_cases h0 : (calculate_non_iid_entropy_core E data bps b).error_code = 0
    · have hrm := (m.2.1 h0).2.2.2.1 rec hm
      exact ⟨hrm.2.1 hlit, fun h3 => hrm.2.2.2.1 h3 hlit⟩
    · have htr := (m.1 h0).2.2.2.2.2
      rw [htr] at hm
      exact absurd hm (List.not_mem_nil _)
  · intro h0 hb
    exact (m.2.1 h0).2.2.2.2 hb

/-- C1 counterexample: with `alph_size = 3` (≠ 2) and `initial_entropy = true`,
the multi-MCW estimator *is* invoked on the literal channel and its value does
update `H_original` — refuting the claim that all seven estimators run the
literal channel only when `alph_size == 2`. -/
theorem c1_counterexample :
    (prepare_data [0, 1, 2] 2).alph_size = 3 ∧
    ((calculate_non_iid_entropy_core Emcw [0, 1, 2] 2 true).trace.filter
      (fun rec => rec.est == "Multi Most Common in Window Test" &&
        rec.channel == "Literal" &&
        decide (rec.Ho_after ≠ rec.Ho_before))).length = 1 := by decide

/-- C1 witness: a successful binary-alphabet `initial_entropy` run where the
theorem's hypotheses are dischargeable. -/
theorem c1_witness :
    (calculate_non_iid_entropy_core Eok [0, 1] 1 true).error_code = 0 ∧
    (∃ rec ∈ (calculate_non_iid_entropy_core Eok [0, 1] 1 true).trace,
      rec.est = "Multi Most Common in Window Test" ∧ rec.channel = "Literal") ∧
    (prepare_data [0, 1] (1 : ℤ).toNat).alph_size = 2 := by
  refine ⟨by decide, ((c1_literal_channel_policy Eok [0, 1] 1 true).2
    (by decide) rfl).1, ?_⟩
  exact ((c1_literal_channel_policy Eok [0, 1] 1 true).1
    ⟨"Collision Test", "Literal", 1, 1, 1, 1, 1⟩ (by decide) rfl).2
    (Or.inl rfl)

/-- C2 (code-bug evidence): the auto-detection of `prepare_data` returns
(highest set bit index) + 2 for any nonzero sample — e.g. 2 for `[0x01]`, 8
for `[0x40]` and 9 for `[0x80]` — while the specified value
(`spec_auto_word_size`) is (highest set bit index) + 1; only the all-zero
convention agrees. -/
theorem c2_auto_detect_bug :
    (prepare_data [1] 0).word_size = 2 ∧ spec_auto_word_size [1] = 1 ∧
    (prepare_data [64] 0).word_size = 8 ∧ spec_auto_word_size [64] = 7 ∧
    (prepare_data [128] 0).word_size = 9 ∧ spec_auto_word_size [128] = 8 ∧
    (prepare_data [0, 0] 0).word_size = 1 ∧ spec_auto_word_size [0, 0] = 1 := by
  decide

set_option maxRecDepth 40000 in
/-- C3 (code-bug evidence): requested word sizes outside `[0,8]` are rejected
before preparation, but a successful auto-detected assessment can report
`data_word_size = 9`, violating the `[1,8]` range. -/
theorem c3_word_size_range_bug :
    (calculate_non_iid_entropy_core Eok [0, 128] 0 true).error_code = 0 ∧
    (calculate_non_iid_entropy_core Eok [0, 128] 0 true).data_word_size = 9 ∧
    ¬ (calculate_non_iid_entropy_core Eok [0, 128] 0 true).data_word_size ≤ 8 ∧
    (calculate_non_iid_entropy_core Eok [1] 9 true).error_code = -1 ∧
    (calculate_non_iid_entropy_core Eok [1] (-1) true).error_code = -1 ∧
    (calculate_iid_entropy_core Eok [1] 9 true).error_code = -1 ∧
    (calculate_iid_entropy_core Eok [1] (-1) true).error_code = -1 := by decide

/-- C4 (amended): a sentinel (negative) return is excluded from the running
minima exactly for the guarded estimators — compression, t-tuple, LRS,
multi-MCW, lag, multi-MMC and LZ78Y — while for most-common-value, collision
and Markov the returned value is folded into the channel minimum
unconditionally; every recorded outcome carries
`is_entropy_valid = (entropy_estimate >= 0)`. -/
theorem c4_sentinel_policy (E : Estimators) (data : List ℕ) (bps : ℤ)
    (b : Bool) :
    (∀ rec ∈ (calculate_non_iid_entropy_core E data bps b).trace,
      ((rec.est = "Compression Test" ∨ rec.est = "t-Tuple Test" ∨
        rec.est = "LRS Test" ∨ rec.est = "Multi Most Common in Window Test" ∨
        rec.est = "Lag Prediction Test" ∨
        rec.est = "Multi Markov Model with Counting Test" ∨
        rec.est = "LZ78Y Test") →
        rec.value < 0 →
        rec.Ho_after = rec.Ho_before ∧ rec.Hb_after = rec.Hb_before) ∧
      ((rec.est = "Most Common Value" ∨ rec.est = "Collision Test" ∨
        rec.est = "Markov Test") →
        (rec.channel = "Bitstring" → rec.Hb_after = min rec.value rec.Hb_before) ∧
        (rec.channel = "Literal" → rec.Ho_after = min rec.value rec.Ho_before))) ∧
    (∀ er ∈ (calculate_non_iid_entropy_core E data bps b).estimators,
      er.is_entropy_valid = decide (0 ≤ er.entropy_estimate)) := by
  have m := non_iid_master (rfl :
    calculate_non_iid_entropy_core E data bps b = _)
  refine ⟨?_, m.2.2⟩
  intro rec hm
  by_cases h0 : (calculate_non_iid_entropy_core E data bps b).error_code = 0
  · have hrm := (m.2.1 h0).2.2.2.1 rec hm
    exact ⟨hrm.2.2.2.2.1, fun h3 =>
      ⟨fun hch => ((hrm.2.2.2.2.2 h3).1 hch).1,
       fun hch => ((hrm.2.2.2.2.2 h3).2 hch).1⟩⟩
  · have htr := (m.1 h0).2.2.2.2.2
    rw [htr] at hm
    exact absurd hm (List.not_mem_nil _)

/-- C4 counterexample: a sentinel returned by the collision estimator on the
bitstring channel is *not* excluded — it changes `H_bitstring` (to `-1`),
which even propagates into the reported `h_bitstring` of a successful run. -/
theorem c4_counterexample :
    ((calculate_non_iid_entropy_core Eneg [0, 1] 1 false).trace.filter
      (fun rec => decide (rec.value < 0) &&
        decide (rec.Hb_after ≠ rec.Hb_before))).length = 1 ∧
    (calculate_non_iid_entropy_core Eneg [0, 1] 1 false).error_code = 0 ∧
    (calculate_non_iid_entropy_core Eneg [0, 1] 1 false).h_bitstring = -1 := by
  decide

/-- C4 witness: a guarded estimator (compression) returning the sentinel
leaves both minima unchanged, and its recorded outcome is invalid. -/
theorem c4_witness :
    (⟨"Compression Test", "Bitstring", -1, 1, 1, 1, 1⟩ : InvocationRec) ∈
      (calculate_non_iid_entropy_core Ecomp [0, 1] 1 false).trace ∧
    ((1 : ℚ) = 1 ∧ (1 : ℚ) = 1) ∧
    (⟨"Compression Test", -1, false, false⟩ : EstimatorResult) ∈
      (calculate_non_iid_entropy_core Ecomp [0, 1] 1 false).estimators ∧
    (false : Bool) = decide ((0 : ℚ) ≤ -1) := by
  refine ⟨by decide, ?_, by decide, ?_⟩
  · exact ((c4_sentinel_policy Ecomp [0, 1] 1 false).1
      ⟨"Compression Test", "Bitstring", -1, 1, 1, 1, 1⟩ (by decide)).1
      (Or.inl rfl) (by decide)
  · exact (c4_sentinel_policy Ecomp [0, 1] 1 false).2
      ⟨"Compression Test", -1, false, false⟩ (by decide)

/-- C5: on every successful assessment, `h_assessed` is `word_size`
intersected with `H_bitstring * word_size` whenever the bitstring channel was
in scope (`alph_size > 2` in IID mode; `alph_size > 2` or not
`initial_entropy` in Non-IID mode) and with `H_original` whenever it was
(always in IID mode; `initial_entropy` in Non-IID mode); `min_entropy` equals
`h_assessed`, and `h_assessed ≤ word_size`. -/
theorem c5_combination (E : Estimators) (data : List ℕ) (bps : ℤ)
    (b ib : Bool) :
    ((calculate_non_iid_entropy_core E data bps b).error_code = 0 →
      (calculate_non_iid_entropy_core E data bps b).h_assessed =
        combineNI (prepare_data data bps.toNat).word_size
          (prepare_data data bps.toNat).alph_size b
          (calculate_non_iid_entropy_core E data bps b).h_bitstring
          (calculate_non_iid_entropy_core E data bps b).h_original ∧
      (calculate_non_iid_entropy_core E data bps b).min_entropy =
        (calculate_non_iid_entropy_core E data bps b).h_assessed ∧
      (calculate_non_iid_entropy_core E data bps b).h_assessed ≤
        ((calculate_non_iid_entropy_core E data bps b).data_word_size : ℚ)) ∧
    ((calculate_iid_entropy_core E data bps ib).error_code = 0 →
      (calculate_iid_entropy_core E data bps ib).h_assessed =
        combineIID (prepare_data data bps.toNat).word_size
          (prepare_data data bps.toNat).alph_size
          (calculate_iid_entropy_core E data bps ib).h_bitstring
          (calculate_iid_entropy_core E data bps ib).h_original ∧
      (calculate_iid_entropy_core E data bps ib).min_entropy =
        (calculate_iid_entropy_core E data bps ib).h_assessed ∧
      (calculate_iid_entropy_core E data bps ib).h_assessed ≤
        ((calculate_iid_entropy_core E data bps ib).data_word_size : ℚ)) := by
  constructor
  · intro h0
    have m := (non_iid_master (rfl :
      calculate_non_iid_entropy_core E data bps b = _)).2.1 h0
    refine ⟨m.2.2.1, m.2.1, ?_⟩
    rw [m.2.2.1, m.1]
    exact combineNI_le_ws _ _ _ _ _
  · intro h0
    have m := (iid_master (rfl :
      calculate_iid_entropy_core E data bps ib = _)).2.1 h0
    refine ⟨m.2.2.1, m.2.1, ?_⟩
    rw [m.2.2.1, m.1]
    exact combineIID_le_ws _ _ _ _

/-- C5 witness: a concrete successful run in each mode. -/
theorem c5_witness :
    (calculate_non_iid_entropy_core Eok [0, 1, 2] 2 true).error_code = 0 ∧
    (calculate_non_iid_entropy_core Eok [0, 1, 2] 2 true).min_entropy =
      (calculate_non_iid_entropy_core Eok [0, 1, 2] 2 true).h_assessed ∧
    (calculate_iid_entropy_core Eok [0, 1, 2] 2 true).error_code = 0 ∧
    (calculate_iid_entropy_core Eok [0, 1, 2] 2 true).h_assessed ≤
      ((calculate_iid_entropy_core Eok [0, 1, 2] 2 true).data_word_size : ℚ) := by
  refine ⟨by decide, ?_, by decide, ?_⟩
  · exact ((c5_combination Eok [0, 1, 2] 2 true true).1 (by decide)).2.1
  · exact ((c5_combination Eok [0, 1, 2] 2 true true).2 (by decide)).2.2

/-- C6: any non-empty input (with an in-range word-size request) whose masked
values contain at most one distinct symbol makes both assessments return the
degenerate-alphabet error result: error code `-1` with the degenerate-alphabet
message, no estimator invocation (empty outcome list and trace), no numeric
result, independently of the estimators supplied. -/
theorem c6_degenerate_alphabet (E Ep : Estimators) (data : List ℕ) (bps : ℤ)
    (b ib : Bool) (hne : data ≠ []) (hlo : 0 ≤ bps) (hhi : bps ≤ 8)
    (hdeg : (maskedValues data bps.toNat).dedup.length ≤ 1) :
    calculate_non_iid_entropy_core E data bps b =
      set_error create_result (-1)
        "Symbol alphabet consists of 1 symbol. No entropy awarded." ∧
    calculate_iid_entropy_core E data bps ib =
      set_error create_result (-1)
        "Symbol alphabet consists of 1 symbol. No entropy awarded." ∧
    calculate_non_iid_entropy_core E data bps b =
      calculate_non_iid_entropy_core Ep data bps b ∧
    calculate_iid_entropy_core E data bps ib =
      calculate_iid_entropy_core Ep data bps ib ∧
    (calculate_non_iid_entropy_core E data bps b).estimators = [] ∧
    (calculate_non_iid_entropy_core E data bps b).trace = [] ∧
    (calculate_non_iid_entropy_core E data bps b).min_entropy = 0 ∧
    (calculate_non_iid_entropy_core E data bps b).h_assessed = 0 := by
  have hlen : ¬ data.length = 0 := by
    intro h
    exact hne (List.length_eq_zero.mp h)
  have hrange : ¬ (bps < 0 ∨ 8 < bps) := by omega
  have halph : (prepare_data data bps.toNat).alph_size ≤ 1 := by
    rw [prepare_data_alph]
    have hbound : ∀ x ∈ data.map
        (fun v => v &&& (2 ^ (prepare_data data bps.toNat).word_size - 1)),
        x < 2 ^ (prepare_data data bps.toNat).word_size := by
      intro x hx
      obtain ⟨bb, _, rfl⟩ := List.mem_map.mp hx
      exact and_lt_two_pow bb _
    rw [occList_length_eq_dedup hbound]
    simpa [maskedValues] using hdeg
  have key : ∀ (F : Estimators), non_iid_body F data bps b =
      .ok (set_error create_result (-1)
        "Symbol alphabet consists of 1 symbol. No entropy awarded.") := by
    intro F
    simp only [non_iid_body]
    rw [if_neg hlen, if_neg hrange, if_pos halph]
  have keyI : ∀ (F : Estimators), iid_body F data bps =
      .ok (set_error create_result (-1)
        "Symbol alphabet consists of 1 symbol. No entropy awarded.") := by
    intro F
    simp only [iid_body]
    rw [if_neg hlen, if_neg hrange, if_pos halph]
  have e1 : calculate_non_iid_entropy_core E data bps b =
      set_error create_result (-1)
        "Symbol alphabet consists of 1 symbol. No entropy awarded." := by
    rw [calculate_non_iid_entropy_core, key E]
  have e1p : calculate_non_iid_entropy_core Ep data bps b =
      set_error create_result (-1)
        "Symbol alphabet consists of 1 symbol. No entropy awarded." := by
    rw [calculate_non_iid_entropy_core, key Ep]
  have e2 : calculate_iid_entropy_core E data bps ib =
      set_error create_result (-1)
        "Symbol alphabet consists of 1 symbol. No entropy awarded." := by
    rw [calculate_iid_entropy_core, keyI E]
  have e2p : calculate_iid_entropy_core Ep data bps ib =
      set_error create_result (-1)
        "Symbol alphabet consists of 1 symbol. No entropy awarded." := by
    rw [calculate_iid_entropy_core, keyI Ep]
  refine ⟨e1, e2, by rw [e1, e1p], by rw [e2, e2p], ?_, ?_, ?_, ?_⟩ <;> rw [e1] <;> rfl

/-- C6 witness: a sample of identical bytes is rejected as degenerate in both
modes. -/
theorem c6_witness :
    calculate_non_iid_entropy_core Eok [5, 5] 8 true =
      set_error create_result (-1)
        "Symbol alphabet consists of 1 symbol. No entropy awarded." ∧
    calculate_iid_entropy_core Eok [5, 5] 8 true =
      set_error create_result (-1)
        "Symbol alphabet consists of 1 symbol. No entropy awarded." ∧
    (calculate_non_iid_entropy_core Eok [5, 5] 8 true).trace = [] := by
  have h := c6_degenerate_alphabet Eok Eok [5, 5] 8 true true (by decide)
    (by decide) (by decide) (by decide)
  exact ⟨h.1, h.2.1, h.2.2.2.2.2.1⟩

/-- C7 witness: the compaction facts instantiated on the concrete sample
`[3,7,7,0]` with `word_size = 3` (some value in range never occurs) and on
`[0,1]` with `word_size = 1` (already dense, no rewrite). -/
theorem c7_witness :
    (prepare_data [3, 7, 7, 0] 3).alph_size =
      (maskedValues [3, 7, 7, 0] 3).dedup.length ∧
    2 < (prepare_data [3, 7, 7, 0] 3).alph_size ∧
    compactionMap [3, 7, 7, 0] 3 3 < compactionMap [3, 7, 7, 0] 3 7 ∧
    (∃ v ∈ maskedValues [3, 7, 7, 0] 3, compactionMap [3, 7, 7, 0] 3 v = 2) ∧
    (prepare_data [0, 1] 1).symbols = maskedValues [0, 1] 1 := by
  refine ⟨(c7_alphabet_compaction [3, 7, 7, 0] 3).1, ?_, ?_, ?_, ?_⟩
  · exact (c7_alphabet_compaction [3, 7, 7, 0] 3).2.1 2 (by decide)
  · exact ((c7_alphabet_compaction [3, 7, 7, 0] 3).2.2.2.2.1 3 (by decide) 7
      (by decide)).mpr (by decide)
  · exact (c7_alphabet_compaction [3, 7, 7, 0] 3).2.2.2.2.2.1 2 (by decide)
  · exact ((c7_alphabet_compaction [0, 1] 1).2.2.2.2.2.2 (by decide)).1

/-- C8 (amended): `blen = length * word_size` and the bitstring has exactly
that length; for `word_size = 1` the bitstring is (an alias of) `symbols`; and
the bitstring is the MSB-first `word_size`-bit expansion of the
*pre-compaction* masked values except in the aliasing corner case
`word_size = 1` with a compacting rewrite (that is, whenever `word_size ≥ 2`
or no rewrite occurs). -/
theorem c8_bitstring_construction (data : List ℕ) (bps : ℕ) :
    (prepare_data data bps).blen =
      data.length * (prepare_data data bps).word_size ∧
    (prepare_data data bps).bsymbols.length = (prepare_data data bps).blen ∧
    ((prepare_data data bps).word_size = 1 →
      (prepare_data data bps).bsymbols = (prepare_data data bps).symbols) ∧
    ((2 ≤ (prepare_data data bps).word_size ∨
      ¬ (prepare_data data bps).alph_size < (prepare_data data bps).maxsymbol + 1) →
      (prepare_data data bps).bsymbols =
        ((maskedValues data bps).map
          (bitExpand (prepare_data data bps).word_size)).flatten) := by
  have hsymlen : (prepare_data data bps).symbols.length = data.length := by
    rw [prepare_data_symbols_map]
    simp [maskedValues]
  refine ⟨prepare_data_blen data bps, ?_, ?_, ?_⟩
  · rw [prepare_data_bsymbols, prepare_data_blen]
    by_cases hws : (prepare_data data bps).word_size = 1
    · rw [if_pos hws, hsymlen, hws, mul_one]
    · rw [if_neg hws, flatten_expand_length, List.length_map]
  · intro hws
    rw [prepare_data_bsymbols, if_pos hws]
  · intro hcase
    rw [prepare_data_bsymbols]
    by_cases hws : (prepare_data data bps).word_size = 1
    · rw [if_pos hws]
      rcases hcase with h2 | hnr
      · omega
      · have hsym : (prepare_data data bps).symbols = maskedValues data bps := by
          rw [prepare_data_symbols, if_neg hnr]
          rfl
        have hle : ∀ x ∈ maskedValues data bps, x ≤ 1 := by
          intro x hx
          have := maskedValues_lt data bps x hx
          rw [hws] at this
          omega
        rw [hsym, hws]
        symm
        calc ((maskedValues data bps).map (bitExpand 1)).flatten
            = ((maskedValues data bps).map (fun x => [x &&& 1])).flatten := by
              rw [List.map_congr_left (fun x _ => bitExpand_one x)]
          _ = (maskedValues data bps).map (fun x => x &&& 1) :=
              flatten_singleton_map _ _
          _ = (maskedValues data bps).map id :=
              List.map_congr_left (fun x hx => and_one_of_le_one (hle x hx))
          _ = maskedValues data bps := List.map_id _
    · rw [if_neg hws]
      rfl

/-- C8 counterexample: for `word_size = 1` the bitstring aliases the symbols
buffer, so on `[0x01, 0x01]` (only symbol `1`, which compaction rewrites to
`0`) the bitstring is `[0,0]`, not the expansion `[1,1]` of the
pre-compaction masked values: the claim as stated fails for this prepared
sample. -/
theorem c8_counterexample :
    (prepare_data [1, 1] 1).bsymbols ≠
      ((maskedValues [1, 1] 1).map
        (bitExpand (prepare_data [1, 1] 1).word_size)).flatten ∧
    (prepare_data [1, 1] 1).bsymbols = [0, 0] ∧
    ((maskedValues [1, 1] 1).map
      (bitExpand (prepare_data [1, 1] 1).word_size)).flatten = [1, 1] ∧
    (prepare_data [1, 1] 1).bsymbols = (prepare_data [1, 1] 1).symbols := by
  decide

/-- C8 witness: on `[0,1]` with `word_size = 1` (dense, no rewrite) the
bitstring both aliases `symbols` and equals the raw-value expansion. -/
theorem c8_witness :
    (prepare_data [0, 1] 1).bsymbols = (prepare_data [0, 1] 1).symbols ∧
    (prepare_data [0, 1] 1).bsymbols =
      ((maskedValues [0, 1] 1).map
        (bitExpand (prepare_data [0, 1] 1).word_size)).flatten := by
  refine ⟨(c8_bitstring_construction [0, 1] 1).2.2.1 (by decide),
    (c8_bitstring_construction [0, 1] 1).2.2.2 (Or.inr (by decide))⟩

/-- C9: whenever a (non-NULL) result carries a non-zero error code — input
validation, degenerate alphabet, or an exception caught mid-pipeline — the
numeric fields `min_entropy`, `h_original`, `h_bitstring`, `h_assessed` stay
at their `0.0` defaults and `data_word_size` stays `0`, in both modes. -/
theorem c9_error_numeric_defaults (E : Estimators) (data : List ℕ) (bps : ℤ)
    (b ib : Bool) :
    ((calculate_non_iid_entropy_core E data bps b).error_code ≠ 0 →
      (calculate_non_iid_entropy_core E data bps b).min_entropy = 0 ∧
      (calculate_non_iid_entropy_core E data bps b).h_original = 0 ∧
      (calculate_non_iid_entropy_core E data bps b).h_bitstring = 0 ∧
      (calculate_non_iid_entropy_core E data bps b).h_assessed = 0 ∧
      (calculate_non_iid_entropy_core E data bps b).data_word_size = 0) ∧
    ((calculate_iid_entropy_core E data bps ib).error_code ≠ 0 →
      (calculate_iid_entropy_core E data bps ib).min_entropy = 0 ∧
      (calculate_iid_entropy_core E data bps ib).h_original = 0 ∧
      (calculate_iid_entropy_core E data bps ib).h_bitstring = 0 ∧
      (calculate_iid_entropy_core E data bps ib).h_assessed = 0 ∧
      (calculate_iid_entropy_core E data bps ib).data_word_size = 0) := by
  constructor
  · intro h
    have m := (non_iid_master (rfl :
      calculate_non_iid_entropy_core E data bps b = _)).1 h
    exact ⟨m.1, m.2.1, m.2.2.1, m.2.2.2.1, m.2.2.2.2.1⟩
  · intro h
    have m := (iid_master (rfl :
      calculate_iid_entropy_core E data bps ib = _)).1 h
    exact ⟨m.1, m.2.1, m.2.2.1, m.2.2.2.1, m.2.2.2.2.1⟩

/-- C9 witness: an empty input produces a validation error with all numeric
fields at their defaults. -/
theorem c9_witness :
    (calculate_non_iid_entropy_core Eok [] 0 true).error_code ≠ 0 ∧
    (calculate_non_iid_entropy_core Eok [] 0 true).min_entropy = 0 ∧
    (calculate_iid_entropy_core Eok [] 0 true).error_code ≠ 0 ∧
    (calculate_iid_entropy_core Eok [] 0 true).data_word_size = 0 := by
  refine ⟨by decide, ?_, by decide, ?_⟩
  · exact ((c9_error_numeric_defaults Eok [] 0 true true).1 (by decide)).1
  · exact ((c9_error_numeric_defaults Eok [] 0 true true).2 (by decide)).2.2.2.2

/-- C10: when the allocation of the result structure itself fails, both entry
points return NULL (`none`) rather than a tagged error result; when it
succeeds they return the non-NULL result, so callers must handle NULL in
addition to non-zero error codes. -/
theorem c10_null_on_allocation_failure (E : Estimators) (data : List ℕ)
    (bps : ℤ) (b ib : Bool) :
    calculate_non_iid_entropy false E data bps b = none ∧
    calculate_iid_entropy false E data bps ib = none ∧
    calculate_non_iid_entropy true E data bps b =
      some (calculate_non_iid_entropy_core E data bps b) ∧
    calculate_iid_entropy true E data bps ib =
      some (calculate_iid_entropy_core E data bps ib) :=
  ⟨rfl, rfl, rfl, rfl⟩

end NistWrapper
